import Mathlib

/-
Verification of the fasttext-lite wrapper (src/fasttext_lite/core.py).

The Python module wraps the external fastText engine behind a
scikit-learn-style estimator interface.  The engine itself is opaque: its
fitted model handle is modelled by `EngineModel` (identity plus quantized
flag) and its prediction output is passed to the embedded functions as
explicit data (`EnginePred`, lists of top-k labels).  Everything the wrapper
itself computes - label canonicalization, training-record construction,
probability realignment, persistence - is translated directly from the
source.

Python conventions used in the embedding:
  - exceptions are `Except PyError`;
  - a Python attribute that `__init__` does not set is an `Option` field
    (`none` means accessing it raises `AttributeError`);
  - a Python dict built by a comprehension is an association list of its
    insertions in order; lookup takes the last binding of a key
    (`dictLookup`), matching the overwrite semantics of dict insertion;
  - Python string indexing/slicing is by code point, so strings are handled
    through their `data : List Char`.
-/

/- Errors raised by the Python code paths modelled here. -/
inductive PyError
  | notFitted
  | attributeError
  | keyError
  | indexError
  | valueError
  | fileNotFound
  deriving DecidableEq, Repr

/- Opaque fitted model handle of the external engine: `mid` is an identity
tag (never inspected by the wrapper), `isQuant` is what the artifact reports
via `is_quantized()`. -/
structure EngineModel where
  mid : Nat
  isQuant : Bool
  deriving DecidableEq, Repr

/- One engine answer for one input text: the top-k labels (engine-prefixed,
descending probability) paired positionally with their probabilities. -/
structure EnginePred where
  labels : List String
  probs : List ℚ
  deriving DecidableEq, Repr

/- Filesystem effects of `save`, in the order the Python code performs
them. -/
inductive FsEvent
  | mkdir
  | quantize
  | write (name : String)
  deriving DecidableEq, Repr

/- Lookup in a Python dict represented as its insertion sequence: the last
binding of a key wins, as with repeated dict assignment. -/
def dictLookup {α : Type} (d : List (String × α)) (k : String) : Option α :=
  ((d.filter (fun p => p.1 == k)).getLast?).map Prod.snd

/- Sequential effectful map, the embedding of a Python loop that may raise:
the first exception aborts the whole loop. -/
def mapME {ε α β : Type} (f : α → Except ε β) : List α → Except ε (List β)
  | [] => Except.ok []
  | x :: xs =>
    match f x with
    | Except.error e => Except.error e
    | Except.ok y =>
      match mapME f xs with
      | Except.error e => Except.error e
      | Except.ok ys => Except.ok (y :: ys)

/- Sequential map over an Option-valued body (a loop whose only failure is a
missing dict key). -/
def mapMO {α β : Type} (f : α → Option β) : List α → Option (List β)
  | [] => some []
  | x :: xs =>
    match f x with
    | none => none
    | some y =>
      match mapMO f xs with
      | none => none
      | some ys => some (y :: ys)

/- Source: core.py lines 14-15.  `_adjust_label` replaces every space with
an underscore (Python `str.replace(" ", "_")` on a one-character pattern is
a character-wise substitution). -/
def _adjust_label (s : String) : String :=
  String.mk (s.data.map (fun c => if c = ' ' then '_' else c))

/- Python `label[len(self.label):]`: drop the first `pre.length` code points
of `s` (used in `predict` and `predict_proba` to remove the engine token
prelude such as "__label__"). -/
def stripTok (pre s : String) : String :=
  String.mk (s.data.drop pre.length)

/- Decidability of the String order through the character lists, so that the
kernel can evaluate sorts on concrete labels (the library instance uses
iterator recursion the kernel cannot unfold). -/
def strLeDec : DecidableRel (fun a b : String => a ≤ b) := fun a b =>
  decidable_of_iff (a.toList ≤ b.toList) String.le_iff_toList_le.symm

/- Source: core.py lines 79-81.  `sort_labels(y) = list(sorted(list(set(y))))`:
deduplicate, then sort ascending by the code-point lexicographic order. -/
def BaseFastTextClassifier.sort_labels (y : List String) : List String :=
  @List.insertionSort String (fun a b => a ≤ b) strLeDec y.dedup

/- The observable state of a classifier instance.  Fields set by `__init__`
are plain; attributes first assigned by `fit` or `load` are `Option`.
`labels` is the extra constructor argument of the multi-output variant. -/
structure ClassifierState where
  lr : ℚ
  dim : Int
  ws : Int
  epoch : Int
  minCount : Int
  minCountLabel : Int
  minn : Int
  maxn : Int
  neg : Int
  wordNgrams : Int
  loss : String
  bucket : Int
  lrUpdateRate : Int
  t : ℚ
  label : String
  verbose : Int
  thread : Int
  labels : Option (List String)
  fitted : Bool
  is_quantized : Bool
  adjusted_labels : List (String × String)
  original_labels : Option (List String)
  adjusted_labels_inverse : Option (List (String × String))
  classes_ : Option (List String)
  model : Option EngineModel
  deriving DecidableEq, Repr

/- Source: core.py lines 151-191, `FastTextClassifier.__init__`. -/
def FastTextClassifier.init (lr : ℚ) (dim ws epoch minCount minCountLabel minn maxn neg
    wordNgrams : Int) (loss : String) (bucket lrUpdateRate : Int) (t : ℚ)
    (label : String) (verbose thread : Int) : ClassifierState :=
  { lr := lr, dim := dim, ws := ws, epoch := epoch, minCount := minCount
    minCountLabel := minCountLabel, minn := minn, maxn := maxn, neg := neg
    wordNgrams := wordNgrams, loss := loss, bucket := bucket
    lrUpdateRate := lrUpdateRate, t := t, label := label, verbose := verbose
    thread := thread, labels := none, fitted := false, is_quantized := false
    adjusted_labels := [], original_labels := none
    adjusted_labels_inverse := none, classes_ := none, model := none }

/- Source: core.py lines 237-278, `FastTextMultiOutputClassifier.__init__`
(no `loss` argument: loss is fixed to "ova"). -/
def FastTextMultiOutputClassifier.init (labels : List String) (lr : ℚ)
    (dim ws epoch minCount minCountLabel minn maxn neg wordNgrams : Int)
    (bucket lrUpdateRate : Int) (t : ℚ) (label : String)
    (verbose thread : Int) : ClassifierState :=
  { lr := lr, dim := dim, ws := ws, epoch := epoch, minCount := minCount
    minCountLabel := minCountLabel, minn := minn, maxn := maxn, neg := neg
    wordNgrams := wordNgrams, loss := "ova", bucket := bucket
    lrUpdateRate := lrUpdateRate, t := t, label := label, verbose := verbose
    thread := thread, labels := some labels, fitted := false
    is_quantized := false, adjusted_labels := [], original_labels := none
    adjusted_labels_inverse := none, classes_ := none, model := none }

/- Source: core.py lines 193-233, `FastTextClassifier.fit`.  The external
training call is opaque; the engine hands back `m`.  The function returns
the new instance state together with the training records written to the
temporary corpus file (one line per record, without the trailing newline). -/
def FastTextClassifier.fit (clf : ClassifierState) (X y : List String)
    (m : EngineModel) : Except PyError (ClassifierState × List String) := do
  let ol := BaseFastTextClassifier.sort_labels y
  let adj := ol.map (fun l => (l, _adjust_label l))
  let inv := adj.map (fun p => (p.2, p.1))
  let recs ← mapME (fun q : String × String =>
    match dictLookup adj q.2 with
    | some a => Except.ok (clf.label ++ a ++ " " ++ q.1)
    | none => Except.error PyError.keyError) (X.zip y)
  Except.ok ({ clf with
    original_labels := some ol, adjusted_labels := adj,
    adjusted_labels_inverse := some inv, model := some m,
    classes_ := some ol, fitted := true }, recs)

/- Source: core.py lines 299-306, the `row_to_labels` closure inside
`FastTextMultiOutputClassifier.fit`: join with spaces the engine-prefixed
adjusted labels of the columns holding 1. -/
def row_to_labels (pre : String) (ol : List String)
    (adj : List (String × String)) (row : List Int) : Except PyError String := do
  let toks ← mapME (fun q : Nat × Int => do
    let l ← match ol.get? q.1 with
      | some l => Except.ok l
      | none => Except.error PyError.indexError
    match dictLookup adj l with
    | some a => Except.ok (pre ++ a)
    | none => Except.error PyError.keyError)
    (row.enum.filter (fun q => q.2 == 1))
  Except.ok (String.intercalate " " toks)

/- Source: core.py lines 280-339, `FastTextMultiOutputClassifier.fit`.
Records are `f"{multilabel} {text}"` for `zip(X, multilabels)`. -/
def FastTextMultiOutputClassifier.fit (clf : ClassifierState) (X : List String)
    (y : List (List Int)) (m : EngineModel) :
    Except PyError (ClassifierState × List String) := do
  let ls ← match clf.labels with
    | some ls => Except.ok ls
    | none => Except.error PyError.attributeError
  let ol := BaseFastTextClassifier.sort_labels ls
  let adj := ol.map (fun l => (l, _adjust_label l))
  let inv := adj.map (fun p => (p.2, p.1))
  let multilabels ← mapME (row_to_labels clf.label ol adj) y
  let recs := (X.zip multilabels).map (fun q => q.2 ++ " " ++ q.1)
  Except.ok ({ clf with
    original_labels := some ol, adjusted_labels := adj,
    adjusted_labels_inverse := some inv, model := some m,
    classes_ := some ol, fitted := true }, recs)

/- Source: core.py lines 48-56, `BaseFastTextClassifier.predict`.  `tops`
is the engine output `preds[0]`: for each input, its top-1 label list.  The
wrapper keeps `labels[0]` with the first `len(self.label)` characters
removed; an empty engine row makes `labels[0]` an IndexError. -/
def BaseFastTextClassifier.predict (clf : ClassifierState) (X : List String)
    (tops : List (List String)) : Except PyError (List String) := do
  if clf.fitted = false then throw PyError.notFitted
  let _ ← match clf.model with
    | some m => Except.ok m
    | none => Except.error PyError.attributeError
  mapME (fun ls =>
    match ls.head? with
    | some l => Except.ok (stripTok clf.label l)
    | none => Except.error PyError.indexError) tops

/- Source: core.py lines 66-72.  The Python dict comprehension
`{label: i for i, label in enumerate(stripped labels)}` as its insertion
sequence: pairs (stripped label, engine position). -/
def labelOrder (pre : String) (labels : List String) : List (String × Nat) :=
  (labels.map (stripTok pre)).enum.map (fun q => (q.2, q.1))

/- Source: core.py lines 73-76, the inner loop body of `predict_proba`:
`probs[label_order[self.adjusted_labels[ordered_label]]]`. -/
def probaCell (adj : List (String × String)) (order : List (String × Nat))
    (probs : List ℚ) (c : String) : Except PyError ℚ := do
  let a ← match dictLookup adj c with
    | some a => Except.ok a
    | none => Except.error PyError.keyError
  let i ← match dictLookup order a with
    | some i => Except.ok i
    | none => Except.error PyError.keyError
  match probs.get? i with
  | some q => Except.ok q
  | none => Except.error PyError.indexError

/- One output row of `predict_proba`: one probability per canonical class,
in `classes_` order. -/
def probaRow (pre : String) (classes : List String)
    (adj : List (String × String)) (p : EnginePred) : Except PyError (List ℚ) :=
  mapME (probaCell adj (labelOrder pre p.labels) p.probs) classes

/- The row-filling loop of core.py lines 66-76 over the enumerated engine
answers: each answer computes its aligned row and overwrites row q.1 of the
zero matrix; an answer index at or past the number of inputs is the numpy
assignment IndexError. -/
def probaFill (pre : String) (classes : List String)
    (adj : List (String × String)) (nX : Nat)
    (qs : List (Nat × EnginePred)) : Except PyError (List (List ℚ)) :=
  mapME (fun q => do
    let row ← probaRow pre classes adj q.2
    if q.1 < nX then Except.ok row else Except.error PyError.indexError) qs

/- Source: core.py lines 58-77, `BaseFastTextClassifier.predict_proba`.
`engine` is the zipped engine output, one `EnginePred` per answered input.
The result starts as a zero matrix of shape (len X, n_labels); each engine
answer overwrites its row; rows with no engine answer stay zero. -/
def BaseFastTextClassifier.predict_proba (clf : ClassifierState)
    (X : List String) (engine : List EnginePred) :
    Except PyError (List (List ℚ)) := do
  if clf.fitted = false then throw PyError.notFitted
  let _ ← match clf.model with
    | some m => Except.ok m
    | none => Except.error PyError.attributeError
  let classes ← match clf.classes_ with
    | some cs => Except.ok cs
    | none => Except.error PyError.attributeError
  let rows ← probaFill clf.label classes clf.adjusted_labels X.length
    engine.enum
  Except.ok (rows ++ List.replicate (X.length - engine.length)
    (List.replicate classes.length (0 : ℚ)))

/- Source: core.py lines 341-343, `FastTextMultiOutputClassifier.predict`:
the body is the bare statement `self.predict_proba(X)`, so the method
returns Python `None` (modelled as `none`) after computing the matrix. -/
def FastTextMultiOutputClassifier.predict (clf : ClassifierState)
    (X : List String) (engine : List EnginePred) :
    Except PyError (Option (List (List ℚ))) := do
  let _ ← BaseFastTextClassifier.predict_proba clf X engine
  Except.ok none

/- The directory written by `save` / read by `load`: optional params.json,
optional labels.json ({original, adjusted} pairs in file order), and the
optional model artifacts by extension. -/
structure ParamsJson where
  lr : ℚ
  dim : Int
  ws : Int
  epoch : Int
  minCount : Int
  minCountLabel : Int
  minn : Int
  maxn : Int
  neg : Int
  wordNgrams : Int
  loss : String
  bucket : Int
  lrUpdateRate : Int
  t : ℚ
  deriving DecidableEq, Repr

structure Dir where
  paramsJson : Option ParamsJson
  labelsJson : Option (List (String × String))
  ftz : Option EngineModel
  bin : Option EngineModel
  deriving DecidableEq, Repr

/- Outcome of a `save` call: the filesystem events in order, and either the
resulting (instance state, directory) or the exception that aborted it. -/
structure SaveOutcome where
  events : List FsEvent
  result : Except PyError (ClassifierState × Dir)
  deriving Repr

/- Source: core.py lines 89-115, the part of `save` after the optional
quantization: build the 14-field params dict, write params.json, build
labels.json from `original_labels` and the `adjusted_labels` dict, write
it, then write the model artifact. -/
/- The 14-entry params dict of core.py lines 90-105: every constructor
argument except label, verbose and thread. -/
def paramsOf (clf : ClassifierState) : ParamsJson :=
  { lr := clf.lr, dim := clf.dim, ws := clf.ws, epoch := clf.epoch
    minCount := clf.minCount, minCountLabel := clf.minCountLabel
    minn := clf.minn, maxn := clf.maxn, neg := clf.neg
    wordNgrams := clf.wordNgrams, loss := clf.loss, bucket := clf.bucket
    lrUpdateRate := clf.lrUpdateRate, t := clf.t }

def save_core (clf : ClassifierState) (quantized : Bool)
    (evs : List FsEvent) : SaveOutcome :=
  let params : ParamsJson := paramsOf clf
  let evs1 := evs ++ [FsEvent.write "params.json"]
  match clf.original_labels with
  | none => { events := evs1, result := Except.error PyError.attributeError }
  | some ol =>
    match mapMO (fun l => (dictLookup clf.adjusted_labels l).map
        (fun a => (l, a))) ol with
    | none => { events := evs1, result := Except.error PyError.keyError }
    | some pairs =>
      let evs2 := evs1 ++ [FsEvent.write "labels.json"]
      match clf.model with
      | none => { events := evs2, result := Except.error PyError.attributeError }
      | some m =>
        let fname := if quantized then "fasttext.ftz" else "fasttext.bin"
        { events := evs2 ++ [FsEvent.write fname]
          result := Except.ok (clf,
            { paramsJson := some params, labelsJson := some pairs
              ftz := if quantized then some m else none
              bin := if quantized then none else some m }) }

/- Source: core.py lines 83-115, `BaseFastTextClassifier.save` as inherited
by `FastTextClassifier`: mkdir, optionally quantize the held model in
place, then `save_core`.  Note: there is no fitted check, and
`self.is_quantized` is never assigned. -/
def FastTextClassifier.save (clf : ClassifierState) (quantized : Bool) :
    SaveOutcome :=
  if quantized then
    match clf.model with
    | none => { events := [FsEvent.mkdir]
                result := Except.error PyError.attributeError }
    | some m =>
      save_core { clf with model := some { m with isQuant := true } }
        quantized [FsEvent.mkdir, FsEvent.quantize]
  else save_core clf quantized [FsEvent.mkdir]

/- Source: core.py lines 117-141, `BaseFastTextClassifier.load` for the
single-label class: read params.json and labels.json, resolve the artifact
by trying fasttext.ftz then fasttext.bin, instantiate
`cls(**params)` (label, verbose, thread take their constructor defaults
"__label__", 2, 2 because the params dict never contains them), then set
the fitted fields. -/
def FastTextClassifier.load (dir : Dir) : Except PyError ClassifierState := do
  let params ← match dir.paramsJson with
    | some p => Except.ok p
    | none => Except.error PyError.fileNotFound
  let labelPairs ← match dir.labelsJson with
    | some l => Except.ok l
    | none => Except.error PyError.fileNotFound
  let classes := labelPairs.map Prod.fst
  let m ← match dir.ftz with
    | some m => Except.ok m
    | none =>
      match dir.bin with
      | some m => Except.ok m
      | none => Except.error PyError.valueError
  let clf := FastTextClassifier.init params.lr params.dim params.ws
    params.epoch params.minCount params.minCountLabel params.minn params.maxn
    params.neg params.wordNgrams params.loss params.bucket params.lrUpdateRate
    params.t "__label__" 2 2
  Except.ok { clf with
    model := some m, fitted := true,
    is_quantized := m.isQuant, classes_ := some classes,
    adjusted_labels := labelPairs,
    adjusted_labels_inverse := some (labelPairs.map (fun p => (p.2, p.1))) }

/- Concrete fixtures used by witnesses and counterexamples. -/

def m0 : EngineModel := { mid := 0, isQuant := false }

/- A freshly constructed single-label classifier with the constructor
default arguments (core.py lines 151-170). -/
def clfDefault : ClassifierState :=
  FastTextClassifier.init (1/10) 100 5 5 1 1 0 0 5 1 "softmax" 2000000 100
    (1/10000) "__label__" 2 2

/- The state produced by `clfDefault.fit(["meow"], ["cat"])`. -/
def clfCat : ClassifierState :=
  { clfDefault with
    original_labels := some ["cat"], adjusted_labels := [("cat", "cat")],
    adjusted_labels_inverse := some [("cat", "cat")], model := some m0,
    classes_ := some ["cat"], fitted := true }

def paramsCat : ParamsJson :=
  { lr := 1/10, dim := 100, ws := 5, epoch := 5, minCount := 1,
    minCountLabel := 1, minn := 0, maxn := 0, neg := 5, wordNgrams := 1,
    loss := "softmax", bucket := 2000000, lrUpdateRate := 100, t := 1/10000 }

/- The directory written by `clfCat.save(path)`. -/
def dirCat : Dir :=
  { paramsJson := some paramsCat, labelsJson := some [("cat", "cat")],
    ftz := none, bin := some m0 }

/- A fresh multi-output classifier over labels ["a", "b"], defaults
otherwise. -/
def clfM0 : ClassifierState :=
  FastTextMultiOutputClassifier.init ["a", "b"] (1/10) 100 5 5 1 1 0 0 5 1
    2000000 100 (1/10000) "__label__" 2 2

/- The state produced by `clfM0.fit(["x"], [[1, 0]])`. -/
def clfM : ClassifierState :=
  { clfM0 with
    original_labels := some ["a", "b"],
    adjusted_labels := [("a", "a"), ("b", "b")],
    adjusted_labels_inverse := some [("a", "a"), ("b", "b")], model := some m0,
    classes_ := some ["a", "b"], fitted := true }

/- An engine answer for one input: labels in descending-probability order,
class "b" ahead of class "a". -/
def engM : List EnginePred :=
  [{ labels := ["__label__b", "__label__a"], probs := [7, 3] }]

/- A single-label classifier constructed with a non-default token prelude
argument, label set to "__x__", otherwise defaults. -/
def clfX0 : ClassifierState :=
  FastTextClassifier.init (1/10) 100 5 5 1 1 0 0 5 1 "softmax" 2000000 100
    (1/10000) "__x__" 2 2

/- The round trip of C1's counterexample: fit clfX0 on one example, save,
load, and report the loaded instance's `label` attribute. -/
def roundTripLabel : Except PyError String := do
  let r ← FastTextClassifier.fit clfX0 ["t"] ["a"] m0
  let s ← (FastTextClassifier.save r.1 false).result
  let c2 ← FastTextClassifier.load s.2
  Except.ok c2.label

/- The `label` attribute of the fitted instance before the round trip. -/
def fittedLabelX : Except PyError String := do
  let r ← FastTextClassifier.fit clfX0 ["t"] ["a"] m0
  Except.ok r.1.label

/- Decidable form of "class c's adjusted label is present among the
stripped labels of the engine answer p" (the lookups of core.py lines
69-76 all succeed on c). -/
def adjResolvedB (adj : List (String × String)) (pre : String)
    (p : EnginePred) (c : String) : Bool :=
  match dictLookup adj c with
  | some a => (p.labels.map (stripTok pre)).contains a
  | none => false

/- Artifacts used by the C9 witness: a quantized and an uncompressed
artifact with distinct identities, both present in one directory. -/
def mFtz : EngineModel := { mid := 1, isQuant := true }

def mBin : EngineModel := { mid := 2, isQuant := false }

def dirBoth : Dir :=
  { paramsJson := some paramsCat, labelsJson := some [("cat", "cat")],
    ftz := some mFtz, bin := some mBin }

/- Generic facts about the loop combinators, the dict model and the string
helpers, shared by the claim theorems. -/

theorem mapME_ok_length {ε α β : Type} {f : α → Except ε β} :
    ∀ {xs : List α} {ys : List β}, mapME f xs = Except.ok ys →
      ys.length = xs.length := by
  intro xs
  induction xs with
  | nil =>
    intro ys h
    simp only [mapME] at h
    cases h
    rfl
  | cons x xs ih =>
    intro ys h
    simp only [mapME] at h
    cases hfx : f x with
    | error e => rw [hfx] at h; cases h
    | ok y =>
      rw [hfx] at h
      cases hrest : mapME f xs with
      | error e => rw [hrest] at h; cases h
      | ok ys0 =>
        rw [hrest] at h
        cases h
        simp [ih hrest]

theorem mapME_ok_get {ε α β : Type} {f : α → Except ε β} :
    ∀ {xs : List α} {ys : List β}, mapME f xs = Except.ok ys →
      ∀ {i : Nat} {x : α}, xs.get? i = some x →
        ∃ y, ys.get? i = some y ∧ f x = Except.ok y := by
  intro xs
  induction xs with
  | nil =>
    intro ys _ i x hx
    simp at hx
  | cons a xs ih =>
    intro ys h i x hx
    simp only [mapME] at h
    cases hfa : f a with
    | error e => rw [hfa] at h; cases h
    | ok y =>
      rw [hfa] at h
      cases hrest : mapME f xs with
      | error e => rw [hrest] at h; cases h
      | ok ys0 =>
        rw [hrest] at h
        cases h
        cases i with
        | zero =>
          simp at hx
          cases hx
          exact ⟨y, rfl, hfa⟩
        | succ i =>
          simp only [List.get?_cons_succ] at hx ⊢
          exact ih hrest hx

theorem mapME_ok_of_forall {ε α β : Type} {f : α → Except ε β} :
    ∀ {xs : List α}, (∀ x ∈ xs, ∃ y, f x = Except.ok y) →
      ∃ ys, mapME f xs = Except.ok ys := by
  intro xs
  induction xs with
  | nil => exact fun _ => ⟨[], rfl⟩
  | cons a xs ih =>
    intro h
    obtain ⟨y, hy⟩ := h a (List.mem_cons_self a xs)
    obtain ⟨ys, hys⟩ := ih (fun x hx => h x (List.mem_cons_of_mem a hx))
    exact ⟨y :: ys, by simp only [mapME, hy, hys]⟩

theorem mapME_ok_eq_map {ε α β : Type} {f : α → Except ε β} {g : α → β} :
    ∀ {xs : List α} {ys : List β}, mapME f xs = Except.ok ys →
      (∀ x ∈ xs, ∀ y, f x = Except.ok y → y = g x) → ys = xs.map g := by
  intro xs
  induction xs with
  | nil =>
    intro ys h _
    simp only [mapME] at h
    cases h
    rfl
  | cons a xs ih =>
    intro ys h hg
    simp only [mapME] at h
    cases hfa : f a with
    | error e => rw [hfa] at h; cases h
    | ok y =>
      rw [hfa] at h
      cases hrest : mapME f xs with
      | error e => rw [hrest] at h; cases h
      | ok ys0 =>
        rw [hrest] at h
        cases h
        have h1 := hg a (List.mem_cons_self a xs) y hfa
        have h2 := ih hrest (fun x hx => hg x (List.mem_cons_of_mem a hx))
        simp [h1, h2]

theorem mapMO_ok_of_forall {α β : Type} {f : α → Option β} :
    ∀ {xs : List α}, (∀ x ∈ xs, (f x).isSome) →
      ∃ ys, mapMO f xs = some ys := by
  intro xs
  induction xs with
  | nil => exact fun _ => ⟨[], rfl⟩
  | cons a xs ih =>
    intro h
    obtain ⟨y, hy⟩ := Option.isSome_iff_exists.mp (h a (List.mem_cons_self a xs))
    obtain ⟨ys, hys⟩ := ih (fun x hx => h x (List.mem_cons_of_mem a hx))
    exact ⟨y :: ys, by simp only [mapMO, hy, hys]⟩

theorem mapMO_eq_map {α β : Type} {f : α → Option β} {g : α → β} :
    ∀ {xs : List α}, (∀ x ∈ xs, f x = some (g x)) →
      mapMO f xs = some (xs.map g) := by
  intro xs
  induction xs with
  | nil => intro _; rfl
  | cons a xs ih =>
    intro h
    have ha := h a (List.mem_cons_self a xs)
    have hrest := ih (fun x hx => h x (List.mem_cons_of_mem a hx))
    simp only [mapMO, ha, hrest, List.map_cons]

theorem dictLookup_eq_none {α : Type} {d : List (String × α)} {k : String}
    (h : ∀ p ∈ d, p.1 ≠ k) : dictLookup d k = none := by
  unfold dictLookup
  have hfil : d.filter (fun p => p.1 == k) = [] := by
    rw [List.filter_eq_nil_iff]
    intro p hp
    simpa using h p hp
  rw [hfil]
  rfl

theorem dictLookup_map_pair {α : Type} {g : String → α} :
    ∀ {ks : List String}, ks.Nodup → ∀ {k : String}, k ∈ ks →
      dictLookup (ks.map (fun x => (x, g x))) k = some (g k) := by
  intro ks
  induction ks with
  | nil => intro _ k hk; simp at hk
  | cons a ks ih =>
    intro hnd k hk
    have hna : a ∉ ks := (List.nodup_cons.mp hnd).1
    have hndt : ks.Nodup := (List.nodup_cons.mp hnd).2
    rcases List.mem_cons.mp hk with rfl | hk2
    · unfold dictLookup
      have hfil : (ks.map (fun x => (x, g x))).filter (fun p => p.1 == k) = [] := by
        rw [List.filter_eq_nil_iff]
        intro p hp
        obtain ⟨x, hx, rfl⟩ := List.mem_map.mp hp
        simp only [beq_iff_eq]
        intro hxa
        exact hna (hxa ▸ hx)
      simp only [List.map_cons, List.filter_cons, beq_self_eq_true, if_pos,
        hfil]
      rfl
    · have hak : a ≠ k := fun he => hna (he ▸ hk2)
      unfold dictLookup at ih ⊢
      have : ((a, g a).1 == k) = false := by simpa using hak
      simp only [List.map_cons, List.filter_cons, this]
      exact ih hndt hk2

theorem filter_enumFrom_eq_nil {a : String} :
    ∀ (S : List String) (n : Nat), a ∉ S →
      ((S.enumFrom n).map (fun q => (q.2, q.1))).filter
        (fun p => p.1 == a) = [] := by
  intro S
  induction S with
  | nil => intro n _; rfl
  | cons b S ih =>
    intro n hna
    have hba : b ≠ a := fun he => hna (he ▸ List.mem_cons_self b S)
    have hnas : a ∉ S := fun hs => hna (List.mem_cons_of_mem b hs)
    simp only [List.enumFrom, List.map_cons]
    rw [List.filter_cons_of_neg (by simpa using hba)]
    exact ih (n + 1) hnas

theorem dictLookup_enumFrom :
    ∀ (S : List String), S.Nodup → ∀ (n k : Nat) (a : String),
      S.get? k = some a →
      dictLookup ((S.enumFrom n).map (fun q => (q.2, q.1))) a =
        some (n + k) := by
  intro S
  induction S with
  | nil => intro _ n k a h; simp at h
  | cons b S ih =>
    intro hnd n k a h
    have hnb : b ∉ S := (List.nodup_cons.mp hnd).1
    have hndt : S.Nodup := (List.nodup_cons.mp hnd).2
    cases k with
    | zero =>
      simp only [List.get?_cons_zero, Option.some.injEq] at h
      subst h
      unfold dictLookup
      simp only [List.enumFrom, List.map_cons]
      rw [List.filter_cons_of_pos (by simp),
        filter_enumFrom_eq_nil S (n + 1) hnb]
      simp
    | succ k =>
      have hmem : a ∈ S := List.get?_mem h
      have hba : b ≠ a := fun he => hnb (he ▸ hmem)
      simp only [List.get?_cons_succ] at h
      unfold dictLookup at ih ⊢
      simp only [List.enumFrom, List.map_cons]
      rw [List.filter_cons_of_neg (by simpa using hba),
        ih hndt (n + 1) k a h]
      congr 1
      omega

theorem dictLookup_labelOrder {pre : String} {labels : List String}
    (hnd : (labels.map (stripTok pre)).Nodup) {k : Nat} {a : String}
    (hk : (labels.map (stripTok pre)).get? k = some a) :
    dictLookup (labelOrder pre labels) a = some k := by
  have := dictLookup_enumFrom (labels.map (stripTok pre)) hnd 0 k a hk
  simpa [labelOrder, List.enum] using this

theorem zip_get?_eq {α β : Type} :
    ∀ {xs : List α} {ys : List β} {i : Nat} {x : α} {y : β},
      xs.get? i = some x → ys.get? i = some y →
      (xs.zip ys).get? i = some (x, y) := by
  intro xs
  induction xs with
  | nil => intro ys i x y h _; simp at h
  | cons a xs ih =>
    intro ys i x y hx hy
    cases ys with
    | nil => simp at hy
    | cons b ys =>
      cases i with
      | zero =>
        simp only [List.get?_cons_zero, Option.some.injEq] at hx hy
        simp [List.zip_cons_cons, hx, hy]
      | succ i =>
        simp only [List.get?_cons_succ] at hx hy
        simpa [List.zip_cons_cons] using ih hx hy

theorem stripTok_append (pre a : String) : stripTok pre (pre ++ a) = a := by
  unfold stripTok
  have hdata : (pre ++ a).data = pre.data ++ a.data := rfl
  have hlen : pre.length = pre.data.length := rfl
  rw [hdata, hlen, List.drop_left]

theorem adjust_no_space (c : String) : ' ' ∉ (_adjust_label c).data := by
  unfold _adjust_label
  intro hmem
  obtain ⟨x, _, hfx⟩ := List.mem_map.mp hmem
  by_cases hxs : x = ' '
  · rw [if_pos hxs] at hfx
    cases hfx
  · rw [if_neg hxs] at hfx
    exact hxs hfx

theorem adjust_ne_of_space {c : String} (h : ' ' ∈ c.data) :
    _adjust_label c ≠ c := by
  intro he
  have hns := adjust_no_space c
  rw [he] at hns
  exact hns h

theorem sort_labels_sorted (y : List String) :
    (BaseFastTextClassifier.sort_labels y).Sorted (fun a b : String => a ≤ b) :=
  @List.sorted_insertionSort String (fun a b => a ≤ b) strLeDec _ _ y.dedup

theorem sort_labels_perm_dedup (y : List String) :
    List.Perm (BaseFastTextClassifier.sort_labels y) y.dedup :=
  @List.perm_insertionSort String (fun a b => a ≤ b) strLeDec y.dedup

theorem sort_labels_nodup (y : List String) :
    (BaseFastTextClassifier.sort_labels y).Nodup :=
  ((sort_labels_perm_dedup y).nodup_iff).mpr y.nodup_dedup

theorem mem_sort_labels {y : List String} {a : String} :
    a ∈ BaseFastTextClassifier.sort_labels y ↔ a ∈ y := by
  rw [(sort_labels_perm_dedup y).mem_iff, List.mem_dedup]

theorem sort_labels_eq_of_toFinset {y₁ y₂ : List String}
    (h : y₁.toFinset = y₂.toFinset) :
    BaseFastTextClassifier.sort_labels y₁ = BaseFastTextClassifier.sort_labels y₂ := by
  refine List.eq_of_perm_of_sorted ?_ (sort_labels_sorted y₁) (sort_labels_sorted y₂)
  rw [List.perm_ext_iff_of_nodup (sort_labels_nodup y₁) (sort_labels_nodup y₂)]
  intro a
  rw [mem_sort_labels, mem_sort_labels, ← List.mem_toFinset, h,
    List.mem_toFinset]

theorem except_bind_ok_iff {ε α β : Type} {x : Except ε α} {f : α → Except ε β}
    {b : β} :
    (x >>= f) = Except.ok b ↔ ∃ a, x = Except.ok a ∧ f a = Except.ok b := by
  cases x with
  | error e => simp [Bind.bind, Except.bind]
  | ok a => simp [Bind.bind, Except.bind]

/-- C2: `sort_labels` (core.py lines 79-81) returns a sorted, duplicate-free
list, and two inputs with the same set of labels - any order, any duplicate
multiplicities - give the identical result. -/
theorem sort_labels_canonical (y₁ y₂ : List String) :
    (BaseFastTextClassifier.sort_labels y₁).Sorted (fun a b : String => a ≤ b) ∧
    (BaseFastTextClassifier.sort_labels y₁).Nodup ∧
    (y₁.toFinset = y₂.toFinset →
      BaseFastTextClassifier.sort_labels y₁ =
        BaseFastTextClassifier.sort_labels y₂) :=
  ⟨sort_labels_sorted y₁, sort_labels_nodup y₁, sort_labels_eq_of_toFinset⟩

/-- Witness for C2 at the concrete inputs ["b","a","b"] and ["a","b","a"]:
same label set, so the same canonical result ["a","b"]. -/
theorem sort_labels_canonical_witness :
    (["b", "a", "b"] : List String).toFinset =
      (["a", "b", "a"] : List String).toFinset ∧
    BaseFastTextClassifier.sort_labels ["b", "a", "b"] =
      BaseFastTextClassifier.sort_labels ["a", "b", "a"] ∧
    BaseFastTextClassifier.sort_labels ["b", "a", "b"] = ["a", "b"] := by
  have h : (["b", "a", "b"] : List String).toFinset =
      (["a", "b", "a"] : List String).toFinset := by decide
  exact ⟨h, (sort_labels_canonical ["b", "a", "b"] ["a", "b", "a"]).2.2 h,
    by decide⟩

/-- C5: in single-label fit (core.py lines 206-209), the training record for
pair (text, label) at position i of zip(X, y) is exactly the token prelude,
the adjusted label (spaces replaced by underscores), one space, and the
text. -/
theorem fit_record_format (clf : ClassifierState) (X y : List String)
    (m : EngineModel) (clf2 : ClassifierState) (recs : List String)
    (hfit : FastTextClassifier.fit clf X y m = Except.ok (clf2, recs))
    (i : Nat) (text lab : String)
    (hi : (X.zip y).get? i = some (text, lab)) :
    recs.get? i = some (clf.label ++ _adjust_label lab ++ " " ++ text) := by
  simp only [FastTextClassifier.fit] at hfit
  cases hm : mapME (fun q : String × String =>
      match dictLookup ((BaseFastTextClassifier.sort_labels y).map
          (fun l => (l, _adjust_label l))) q.2 with
      | some a => Except.ok (clf.label ++ a ++ " " ++ q.1)
      | none => Except.error PyError.keyError) (X.zip y) with
  | error e =>
    rw [hm] at hfit
    exact Except.noConfusion hfit
  | ok rs =>
    rw [hm] at hfit
    simp only [Bind.bind, Except.bind, Except.ok.injEq, Prod.mk.injEq] at hfit
    obtain ⟨-, hrecs⟩ := hfit
    subst hrecs
    obtain ⟨r, hr, hFr⟩ := mapME_ok_get hm hi
    have hlab : lab ∈ y := (List.of_mem_zip (List.get?_mem hi)).2
    have hsl : lab ∈ BaseFastTextClassifier.sort_labels y :=
      mem_sort_labels.mpr hlab
    rw [dictLookup_map_pair (sort_labels_nodup y) hsl] at hFr
    simp only [Except.ok.injEq] at hFr
    rw [hr, hFr]

/-- Witness for C5: fitting defaults on X = ["meow"], y = ["cat"] emits the
record "__label__cat meow". -/
theorem fit_record_format_witness :
    FastTextClassifier.fit clfDefault ["meow"] ["cat"] m0 =
      Except.ok (clfCat, ["__label__cat meow"]) ∧
    (["__label__cat meow"] : List String).get? 0 =
      some (clfDefault.label ++ _adjust_label "cat" ++ " " ++ "meow") :=
  ⟨rfl, fit_record_format clfDefault ["meow"] ["cat"] m0 clfCat
    ["__label__cat meow"] rfl 0 "meow" "cat" rfl⟩

/-- C6: in multi-label fit (core.py lines 299-315), the record for row i is
the space-join of the engine-prefixed adjusted labels of exactly the columns
holding 1, in column order, then a space and the text; a row with no 1s
contributes no label tokens. -/
theorem multilabel_fit_records (clf : ClassifierState) (X : List String)
    (y : List (List Int)) (m : EngineModel) (ls : List String)
    (hls : clf.labels = some ls) (clf2 : ClassifierState) (recs : List String)
    (hfit : FastTextMultiOutputClassifier.fit clf X y m =
      Except.ok (clf2, recs))
    (i : Nat) (row : List Int) (text : String)
    (hrow : y.get? i = some row) (htext : X.get? i = some text) :
    recs.get? i = some (String.intercalate " "
        ((row.enum.filter (fun q => q.2 == 1)).map (fun q =>
          clf.label ++ _adjust_label
            (((BaseFastTextClassifier.sort_labels ls).get? q.1).getD ""))) ++
      " " ++ text) ∧
    ((∀ v ∈ row, v ≠ 1) → recs.get? i = some (" " ++ text)) := by
  have hmain : recs.get? i = some (String.intercalate " "
      ((row.enum.filter (fun q => q.2 == 1)).map (fun q =>
        clf.label ++ _adjust_label
          (((BaseFastTextClassifier.sort_labels ls).get? q.1).getD ""))) ++
      " " ++ text) := by
    simp only [FastTextMultiOutputClassifier.fit, hls, Bind.bind,
      Except.bind] at hfit
    cases hm : mapME (row_to_labels clf.label
        (BaseFastTextClassifier.sort_labels ls)
        ((BaseFastTextClassifier.sort_labels ls).map
          (fun l => (l, _adjust_label l)))) y with
    | error e =>
      rw [hm] at hfit
      exact Except.noConfusion hfit
    | ok mls =>
      rw [hm] at hfit
      simp only [Except.ok.injEq, Prod.mk.injEq] at hfit
      obtain ⟨-, hrecs⟩ := hfit
      subst hrecs
      obtain ⟨s, hs, hrl⟩ := mapME_ok_get hm hrow
      have hz := zip_get?_eq htext hs
      rw [List.get?_map, hz]
      simp only [Option.map_some']
      simp only [row_to_labels] at hrl
      rw [except_bind_ok_iff] at hrl
      obtain ⟨toks, hmt, hok⟩ := hrl
      simp only [Except.ok.injEq] at hok
      have htoks : toks = (row.enum.filter (fun q => q.2 == 1)).map
          (fun q => clf.label ++ _adjust_label
            (((BaseFastTextClassifier.sort_labels ls).get? q.1).getD "")) := by
        refine mapME_ok_eq_map hmt ?_
        intro q _ tok hq
        cases holq : (BaseFastTextClassifier.sort_labels ls).get? q.1 with
        | none =>
          rw [holq] at hq
          simp only [Bind.bind, Except.bind] at hq
          exact Except.noConfusion hq
        | some l =>
          rw [holq] at hq
          simp only [Bind.bind, Except.bind] at hq
          have hmem : l ∈ BaseFastTextClassifier.sort_labels ls :=
            List.get?_mem holq
          rw [dictLookup_map_pair (sort_labels_nodup ls) hmem] at hq
          simp only [Except.ok.injEq] at hq
          rw [← hq]
          simp [holq]
      rw [← hok, htoks]
  refine ⟨hmain, fun hzero => ?_⟩
  have hfil : row.enum.filter (fun q => q.2 == 1) = [] := by
    rw [List.filter_eq_nil_iff]
    intro q hq
    obtain ⟨-, hlt, heq⟩ := List.mem_enumFrom hq
    have hq2 : q.2 ∈ row := by
      rw [heq]
      exact List.getElem_mem _
    simpa using hzero q.2 hq2
  rw [hmain, hfil]
  simp [String.intercalate]

/-- Witness for C6: labels ["a","b"], indicator row [1,0], text "x" give
the training record "__label__a x". -/
theorem multilabel_fit_records_witness :
    FastTextMultiOutputClassifier.fit clfM0 ["x"] [[1, 0]] m0 =
      Except.ok (clfM, ["__label__a x"]) ∧
    (["__label__a x"] : List String).get? 0 = some (String.intercalate " "
        ((([(1 : Int), 0] : List Int).enum.filter (fun q => q.2 == 1)).map
          (fun q => clfM0.label ++ _adjust_label
            (((BaseFastTextClassifier.sort_labels ["a", "b"]).get? q.1).getD
              ""))) ++ " " ++ "x") :=
  ⟨rfl, (multilabel_fit_records clfM0 ["x"] [[1, 0]] m0 ["a", "b"] rfl clfM
    ["__label__a x"] rfl 0 [1, 0] "x" rfl rfl).1⟩

/-- C7: single-label predict (core.py lines 48-56) keeps the engine's top-1
label with only the token prelude removed; the space-to-underscore
adjustment is never reversed, so a class whose original label has spaces
comes back in underscored form, which differs from the original label. -/
theorem predict_keeps_adjusted (clf : ClassifierState) (X : List String)
    (tops : List (List String)) (mm : EngineModel)
    (hfit : clf.fitted = true) (hm : clf.model = some mm)
    (hne : ∀ ls ∈ tops, ls ≠ []) :
    ∃ outs, BaseFastTextClassifier.predict clf X tops = Except.ok outs ∧
      outs.length = tops.length ∧
      (∀ i ls a, tops.get? i = some ls →
        ls.head? = some (clf.label ++ a) → outs.get? i = some a) ∧
      (∀ c : String, (' ') ∈ c.data → _adjust_label c ≠ c) := by
  have hpred : BaseFastTextClassifier.predict clf X tops = mapME (fun ls =>
      match ls.head? with
      | some l => Except.ok (stripTok clf.label l)
      | none => Except.error PyError.indexError) tops := by
    simp [BaseFastTextClassifier.predict, hfit, hm, Bind.bind, Except.bind,
      Pure.pure, Except.pure]
  have hcell : ∀ ls ∈ tops, ∃ r, (match ls.head? with
      | some l => Except.ok (stripTok clf.label l)
      | none => Except.error PyError.indexError) = Except.ok r := by
    intro ls hls
    cases hhd : ls.head? with
    | none => exact absurd (List.head?_eq_none_iff.mp hhd) (hne ls hls)
    | some l => exact ⟨stripTok clf.label l, rfl⟩
  obtain ⟨outs, houts⟩ := mapME_ok_of_forall hcell
  refine ⟨outs, by rw [hpred, houts], mapME_ok_length houts, ?_, ?_⟩
  · intro i ls a hi hhd
    obtain ⟨r, hr, hfr⟩ := mapME_ok_get houts hi
    rw [hhd] at hfr
    simp only [Except.ok.injEq] at hfr
    rw [hr, ← hfr, stripTok_append]
  · intro c hsp
    exact adjust_ne_of_space hsp

/-- Witness for C7: on the fitted instance, an engine answer whose top
label is "__label__pet_store" comes back as "pet_store", and the adjusted
form of "pet store" is indeed not the original label. -/
theorem predict_keeps_adjusted_witness :
    ∃ outs, BaseFastTextClassifier.predict clfCat ["some text"]
        [["__label__pet_store"]] = Except.ok outs ∧
      outs.length = 1 ∧
      (∀ i ls a,
        ([["__label__pet_store"]] : List (List String)).get? i = some ls →
        ls.head? = some (clfCat.label ++ a) → outs.get? i = some a) ∧
      (∀ c : String, (' ') ∈ c.data → _adjust_label c ≠ c) :=
  predict_keeps_adjusted clfCat ["some text"] [["__label__pet_store"]] m0
    rfl rfl (by decide)

/-- C8 (code bug): multi-output predict (core.py lines 341-343) computes
predict_proba but its body has no return statement, so the caller receives
None, never the probability matrix. -/
theorem multioutput_predict_discards :
    FastTextMultiOutputClassifier.fit clfM0 ["x"] [[1, 0]] m0 =
      Except.ok (clfM, ["__label__a x"]) ∧
    BaseFastTextClassifier.predict_proba clfM ["x"] engM =
      Except.ok [[(3 : ℚ), (7 : ℚ)]] ∧
    FastTextMultiOutputClassifier.predict clfM ["x"] engM =
      Except.ok none :=
  ⟨rfl, rfl, rfl⟩

/-- C9: load (core.py lines 127-132) resolves the artifact by trying
fasttext.ftz before fasttext.bin - so with both present the quantized one
is chosen - and with neither present it raises ValueError and returns no
instance. -/
theorem load_artifact_resolution (d : Dir) (p : ParamsJson)
    (lp : List (String × String)) (hp : d.paramsJson = some p)
    (hl : d.labelsJson = some lp) :
    (∀ mf, d.ftz = some mf →
      (FastTextClassifier.load d).map (fun c => (c.model, c.is_quantized)) =
        Except.ok (some mf, mf.isQuant)) ∧
    (d.ftz = none → ∀ mb, d.bin = some mb →
      (FastTextClassifier.load d).map (fun c => (c.model, c.is_quantized)) =
        Except.ok (some mb, mb.isQuant)) ∧
    (d.ftz = none → d.bin = none →
      FastTextClassifier.load d = Except.error PyError.valueError) := by
  refine ⟨?_, ?_, ?_⟩
  · intro mf hftz
    simp [FastTextClassifier.load, hp, hl, hftz, Bind.bind, Except.bind,
      Except.map]
  · intro hftz mb hbin
    simp [FastTextClassifier.load, hp, hl, hftz, hbin, Bind.bind,
      Except.bind, Except.map]
  · intro hftz hbin
    simp [FastTextClassifier.load, hp, hl, hftz, hbin, Bind.bind,
      Except.bind]

/-- Witness for C9: a directory holding params.json, labels.json and both
artifacts loads the quantized one (identity 1, quantized flag true). -/
theorem load_artifact_resolution_witness :
    (FastTextClassifier.load dirBoth).map (fun c => (c.model, c.is_quantized)) =
      Except.ok (some mFtz, mFtz.isQuant) :=
  (load_artifact_resolution dirBoth paramsCat [("cat", "cat")] rfl rfl).1
    mFtz rfl

/-- C10: save(quantized=True) (core.py lines 87-89) quantizes the held
model in place but never assigns is_quantized, which therefore stays False;
is_quantized is only set by load (core.py line 136), from the loaded
artifact's self-reported state. -/
theorem save_quantize_flag (clf : ClassifierState) (mm : EngineModel)
    (ol : List String) (hm : clf.model = some mm)
    (hol : clf.original_labels = some ol)
    (hadj : ∀ l ∈ ol, (dictLookup clf.adjusted_labels l).isSome)
    (hq : clf.is_quantized = false) :
    (∃ clf2 dir, (FastTextClassifier.save clf true).result =
        Except.ok (clf2, dir) ∧
      clf2.model = some { mid := mm.mid, isQuant := true } ∧
      clf2.is_quantized = false) ∧
    (∀ d c2, FastTextClassifier.load d = Except.ok c2 →
      ∃ ma, (d.ftz = some ma ∨ (d.ftz = none ∧ d.bin = some ma)) ∧
        c2.is_quantized = ma.isQuant) := by
  constructor
  · have hsome : ∀ l ∈ ol,
        ((dictLookup clf.adjusted_labels l).map (fun a => (l, a))).isSome := by
      intro l hl
      have hsl := hadj l hl
      cases hdl : dictLookup clf.adjusted_labels l with
      | none => rw [hdl] at hsl; exact absurd hsl (by simp)
      | some a => simp [hdl]
    obtain ⟨pairs, hpairs⟩ := mapMO_ok_of_forall hsome
    have hs : (FastTextClassifier.save clf true).result = Except.ok
        ({ clf with model := some { mid := mm.mid, isQuant := true } },
         { paramsJson := some (paramsOf clf), labelsJson := some pairs,
           ftz := some { mid := mm.mid, isQuant := true }, bin := none }) := by
      simp [FastTextClassifier.save, save_core, hm, hol, hpairs, paramsOf]
    exact ⟨_, _, hs, rfl, hq⟩
  · intro d c2 hload
    cases hdp : d.paramsJson with
    | none =>
      rw [FastTextClassifier.load, hdp] at hload
      simp only [Bind.bind, Except.bind] at hload
      exact Except.noConfusion hload
    | some p =>
      cases hdl : d.labelsJson with
      | none =>
        rw [FastTextClassifier.load, hdp, hdl] at hload
        simp only [Bind.bind, Except.bind] at hload
        exact Except.noConfusion hload
      | some lp =>
        cases hftz : d.ftz with
        | some mf =>
          refine ⟨mf, Or.inl rfl, ?_⟩
          rw [FastTextClassifier.load, hdp, hdl, hftz] at hload
          simp only [Bind.bind, Except.bind, Except.ok.injEq] at hload
          rw [← hload]
        | none =>
          cases hbin : d.bin with
          | some mb =>
            refine ⟨mb, Or.inr ⟨rfl, rfl⟩, ?_⟩
            rw [FastTextClassifier.load, hdp, hdl, hftz, hbin] at hload
            simp only [Bind.bind, Except.bind, Except.ok.injEq] at hload
            rw [← hload]
          | none =>
            rw [FastTextClassifier.load, hdp, hdl, hftz, hbin] at hload
            simp only [Bind.bind, Except.bind] at hload
            exact Except.noConfusion hload

/-- Witness for C10 at the fitted instance clfCat: save(quantized=True)
succeeds, the held model is quantized in place, and is_quantized is still
False afterwards. -/
theorem save_quantize_flag_witness :
    (∃ clf2 dir, (FastTextClassifier.save clfCat true).result =
        Except.ok (clf2, dir) ∧
      clf2.model = some { mid := m0.mid, isQuant := true } ∧
      clf2.is_quantized = false) ∧
    (∀ d c2, FastTextClassifier.load d = Except.ok c2 →
      ∃ ma, (d.ftz = some ma ∨ (d.ftz = none ∧ d.bin = some ma)) ∧
        c2.is_quantized = ma.isQuant) :=
  save_quantize_flag clfCat m0 ["cat"] rfl rfl (by decide) rfl

/-- C4 (amended): on a freshly constructed, unfitted instance, predict and
predict_proba raise the not-fitted error before doing anything else; save,
however, has no fitted check: it creates the target directory and writes
params.json, then raises AttributeError on the missing original_labels
attribute. -/
theorem unfitted_ops (lr : ℚ) (dim ws epoch minCount minCountLabel minn maxn
    neg wordNgrams : Int) (loss : String) (bucket lrUpdateRate : Int) (t : ℚ)
    (label : String) (verbose thread : Int) (X : List String)
    (tops : List (List String)) (engine : List EnginePred) :
    BaseFastTextClassifier.predict (FastTextClassifier.init lr dim ws epoch
        minCount minCountLabel minn maxn neg wordNgrams loss bucket
        lrUpdateRate t label verbose thread) X tops =
      Except.error PyError.notFitted ∧
    BaseFastTextClassifier.predict_proba (FastTextClassifier.init lr dim ws
        epoch minCount minCountLabel minn maxn neg wordNgrams loss bucket
        lrUpdateRate t label verbose thread) X engine =
      Except.error PyError.notFitted ∧
    (FastTextClassifier.save (FastTextClassifier.init lr dim ws epoch
        minCount minCountLabel minn maxn neg wordNgrams loss bucket
        lrUpdateRate t label verbose thread) false).result =
      Except.error PyError.attributeError ∧
    (FastTextClassifier.save (FastTextClassifier.init lr dim ws epoch
        minCount minCountLabel minn maxn neg wordNgrams loss bucket
        lrUpdateRate t label verbose thread) false).events =
      [FsEvent.mkdir, FsEvent.write "params.json"] :=
  ⟨rfl, rfl, rfl, rfl⟩

/-- C4 counterexample: on the unfitted default instance, save does not
raise the not-fitted error - it creates the directory, writes params.json,
and then raises AttributeError. -/
theorem unfitted_save_counterexample :
    (FastTextClassifier.save clfDefault false).result =
      Except.error PyError.attributeError ∧
    (FastTextClassifier.save clfDefault false).result ≠
      Except.error PyError.notFitted ∧
    (FastTextClassifier.save clfDefault false).events =
      [FsEvent.mkdir, FsEvent.write "params.json"] ∧
    clfDefault.fitted = false := by
  refine ⟨rfl, fun h => ?_, rfl, rfl⟩
  have h2 : (Except.error PyError.attributeError :
      Except PyError (ClassifierState × Dir)) =
      Except.error PyError.notFitted := h
  exact PyError.noConfusion (Except.error.inj h2)

/-- C1 (amended): save then load on a fitted single-label instance
reproduces the canonical class sequence (as classes_), the adjustedLabels
mapping, and the 14 persisted hyperparameters (lr, dim, ws, epoch,
minCount, minCountLabel, minn, maxn, neg, wordNgrams, loss, bucket,
lrUpdateRate, t); the label, verbose and thread arguments are not written
to params.json and come back as the constructor defaults "__label__", 2, 2,
and the original_labels attribute itself is not restored by load. -/
theorem save_load_roundtrip (clf : ClassifierState) (ol : List String)
    (mm : EngineModel) (hol : clf.original_labels = some ol)
    (hnd : ol.Nodup)
    (hadj : clf.adjusted_labels = ol.map (fun l => (l, _adjust_label l)))
    (hm : clf.model = some mm) (clf2 : ClassifierState) (dir : Dir)
    (hsave : (FastTextClassifier.save clf false).result =
      Except.ok (clf2, dir)) :
    ∃ clf3, FastTextClassifier.load dir = Except.ok clf3 ∧
      clf3.classes_ = some ol ∧
      clf3.adjusted_labels = clf.adjusted_labels ∧
      clf3.lr = clf.lr ∧ clf3.dim = clf.dim ∧ clf3.ws = clf.ws ∧
      clf3.epoch = clf.epoch ∧ clf3.minCount = clf.minCount ∧
      clf3.minCountLabel = clf.minCountLabel ∧ clf3.minn = clf.minn ∧
      clf3.maxn = clf.maxn ∧ clf3.neg = clf.neg ∧
      clf3.wordNgrams = clf.wordNgrams ∧ clf3.loss = clf.loss ∧
      clf3.bucket = clf.bucket ∧ clf3.lrUpdateRate = clf.lrUpdateRate ∧
      clf3.t = clf.t ∧
      clf3.label = "__label__" ∧ clf3.verbose = 2 ∧ clf3.thread = 2 ∧
      clf3.original_labels = none ∧ clf3.fitted = true := by
  have hpairs : mapMO (fun l =>
      (dictLookup clf.adjusted_labels l).map (fun a => (l, a))) ol =
      some (ol.map (fun l => (l, _adjust_label l))) := by
    refine mapMO_eq_map ?_
    intro l hl
    rw [hadj, dictLookup_map_pair hnd hl]
    rfl
  have hs : (FastTextClassifier.save clf false).result = Except.ok
      (clf, { paramsJson := some (paramsOf clf),
              labelsJson := some (ol.map (fun l => (l, _adjust_label l))),
              ftz := none, bin := some mm }) := by
    simp [FastTextClassifier.save, save_core, hm, hol, hpairs]
  rw [hs] at hsave
  simp only [Except.ok.injEq, Prod.mk.injEq] at hsave
  obtain ⟨-, hdir⟩ := hsave
  subst hdir
  refine ⟨_, rfl, ?_, ?_, rfl, rfl, rfl, rfl, rfl, rfl, rfl, rfl, rfl, rfl,
    rfl, rfl, rfl, rfl, rfl, rfl, rfl, rfl, rfl⟩
  · simp only [FastTextClassifier.load, FastTextClassifier.init, paramsOf,
      Bind.bind, Except.bind, List.map_map, Option.some.injEq]
    exact List.map_id ol
  · simp [FastTextClassifier.load, FastTextClassifier.init, paramsOf,
      Bind.bind, Except.bind, hadj]

/-- Witness for C1 (amended) at the fitted instance clfCat: the saved
directory loads to an instance with the same classes, adjusted mapping and
persisted hyperparameters, default label/verbose/thread, no
original_labels, and fitted set. -/
theorem save_load_roundtrip_witness :
    (FastTextClassifier.save clfCat false).result =
      Except.ok (clfCat, dirCat) ∧
    (∃ clf3, FastTextClassifier.load dirCat = Except.ok clf3 ∧
      clf3.classes_ = some ["cat"] ∧
      clf3.adjusted_labels = clfCat.adjusted_labels ∧
      clf3.lr = clfCat.lr ∧ clf3.dim = clfCat.dim ∧ clf3.ws = clfCat.ws ∧
      clf3.epoch = clfCat.epoch ∧ clf3.minCount = clfCat.minCount ∧
      clf3.minCountLabel = clfCat.minCountLabel ∧ clf3.minn = clfCat.minn ∧
      clf3.maxn = clfCat.maxn ∧ clf3.neg = clfCat.neg ∧
      clf3.wordNgrams = clfCat.wordNgrams ∧ clf3.loss = clfCat.loss ∧
      clf3.bucket = clfCat.bucket ∧
      clf3.lrUpdateRate = clfCat.lrUpdateRate ∧ clf3.t = clfCat.t ∧
      clf3.label = "__label__" ∧ clf3.verbose = 2 ∧ clf3.thread = 2 ∧
      clf3.original_labels = none ∧ clf3.fitted = true) :=
  ⟨rfl, save_load_roundtrip clfCat ["cat"] m0 rfl (by decide) rfl rfl clfCat
    dirCat rfl⟩

/-- C1 counterexample: a fitted instance constructed with label := "__x__"
round-trips to an instance whose label attribute is "__label__", so not
every constructor hyperparameter survives save followed by load. -/
theorem roundtrip_label_counterexample :
    fittedLabelX = Except.ok "__x__" ∧
    roundTripLabel = Except.ok "__label__" ∧
    ("__label__" : String) ≠ "__x__" := by
  refine ⟨rfl, rfl, ?_⟩
  decide

theorem enumFrom_get?_eq {α : Type} :
    ∀ (l : List α) (n i : Nat),
      (l.enumFrom n).get? i = (l.get? i).map (fun a => (n + i, a)) := by
  intro l
  induction l with
  | nil => intro n i; simp [List.enumFrom]
  | cons x xs ih =>
    intro n i
    cases i with
    | zero => simp [List.enumFrom]
    | succ i =>
      simp only [List.enumFrom, List.get?_cons_succ]
      rw [ih (n + 1) i]
      cases xs.get? i with
      | none => rfl
      | some a =>
        simp only [Option.map_some', Option.some.injEq, Prod.mk.injEq]
        exact ⟨by omega, trivial⟩

theorem enum_get?_eq {α : Type} (l : List α) (i : Nat) :
    l.enum.get? i = (l.get? i).map (fun a => (i, a)) := by
  have h := enumFrom_get?_eq l 0 i
  simpa [List.enum] using h

theorem probaRow_ok (pre : String) (classes : List String)
    (adj : List (String × String)) (p : EnginePred)
    (hnd : (p.labels.map (stripTok pre)).Nodup)
    (hpl : p.probs.length = p.labels.length)
    (hres : ∀ c ∈ classes, adjResolvedB adj pre p c = true) :
    ∃ row, probaRow pre classes adj p = Except.ok row ∧
      row.length = classes.length ∧
      (∀ j c a k l q, classes.get? j = some c → dictLookup adj c = some a →
        p.labels.get? k = some l → stripTok pre l = a →
        p.probs.get? k = some q → row.get? j = some q) := by
  have hcell : ∀ c ∈ classes, ∃ v,
      probaCell adj (labelOrder pre p.labels) p.probs c = Except.ok v := by
    intro c hc
    have hrc := hres c hc
    unfold adjResolvedB at hrc
    cases hda : dictLookup adj c with
    | none => rw [hda] at hrc; cases hrc
    | some a =>
      rw [hda] at hrc
      have hmem : a ∈ p.labels.map (stripTok pre) := by
        simpa using hrc
      obtain ⟨k0, hk0⟩ := List.get?_of_mem hmem
      have hord := dictLookup_labelOrder hnd hk0
      obtain ⟨hlt0, -⟩ := List.get?_eq_some.mp hk0
      have hlt : k0 < p.labels.length := by simpa using hlt0
      have hplt : k0 < p.probs.length := by rw [hpl]; exact hlt
      obtain ⟨qv, hqv⟩ : ∃ qv, p.probs.get? k0 = some qv := by
        cases hg : p.probs.get? k0 with
        | none => rw [List.get?_eq_none] at hg; omega
        | some qv => exact ⟨qv, rfl⟩
      refine ⟨qv, ?_⟩
      simp only [probaCell, hda, hord, hqv, Bind.bind, Except.bind]
  obtain ⟨row, hrow⟩ := mapME_ok_of_forall hcell
  have hrow2 : probaRow pre classes adj p = Except.ok row := hrow
  have hlenr : row.length = classes.length := mapME_ok_length hrow
  refine ⟨row, hrow2, hlenr, ?_⟩
  intro j c a k l q hj hda hkl hstrip hq
  obtain ⟨v, hv, hcellv⟩ := mapME_ok_get hrow hj
  have hka : (p.labels.map (stripTok pre)).get? k = some a := by
    rw [List.get?_map, hkl, Option.map_some', hstrip]
  have hord := dictLookup_labelOrder hnd hka
  simp only [probaCell, hda, hord, hq, Bind.bind, Except.bind,
    Except.ok.injEq] at hcellv
  rw [hv, ← hcellv]

/-- C3: on a fitted classifier, predict_proba (core.py lines 58-77) returns
one row per input and one column per class in classes_ order, and entry
(i, j) is the probability the engine paired with the adjusted label of
class j on input i, wherever that pair sat in the engine's
descending-probability output. -/
theorem predict_proba_aligned (clf : ClassifierState) (X : List String)
    (engine : List EnginePred) (mm : EngineModel) (classes : List String)
    (hfit : clf.fitted = true) (hm : clf.model = some mm)
    (hc : clf.classes_ = some classes) (hlen : engine.length = X.length)
    (hnd : ∀ p ∈ engine, (p.labels.map (stripTok clf.label)).Nodup)
    (hpl : ∀ p ∈ engine, p.probs.length = p.labels.length)
    (hres : ∀ p ∈ engine, ∀ c ∈ classes,
      adjResolvedB clf.adjusted_labels clf.label p c = true) :
    ∃ M, BaseFastTextClassifier.predict_proba clf X engine = Except.ok M ∧
      M.length = X.length ∧ (∀ r ∈ M, r.length = classes.length) ∧
      (∀ i j p c a k l q, engine.get? i = some p → classes.get? j = some c →
        dictLookup clf.adjusted_labels c = some a →
        p.labels.get? k = some l → stripTok clf.label l = a →
        p.probs.get? k = some q →
        (M.get? i).bind (fun r => r.get? j) = some q) := by
  have hrowsE : ∀ q ∈ engine.enum, ∃ row,
      (do
        let row ← probaRow clf.label classes clf.adjusted_labels q.2
        if q.1 < X.length then Except.ok row
        else Except.error PyError.indexError) = Except.ok row := by
    intro q hq
    obtain ⟨-, hlt, heq⟩ := List.mem_enumFrom hq
    have hpmem : q.2 ∈ engine := by
      rw [heq]
      exact List.getElem_mem _
    obtain ⟨row, hrow, -, -⟩ :=
      probaRow_ok clf.label classes clf.adjusted_labels q.2 (hnd _ hpmem)
        (hpl _ hpmem) (hres _ hpmem)
    refine ⟨row, ?_⟩
    have hq1 : q.1 < X.length := by
      simp only [Nat.zero_add] at hlt
      omega
    simp only [hrow, Bind.bind, Except.bind]
    rw [if_pos hq1]
  obtain ⟨rows, hrows⟩ := mapME_ok_of_forall hrowsE
  have hfill : probaFill clf.label classes clf.adjusted_labels X.length
      engine.enum = Except.ok rows := hrows
  have hsub : X.length - engine.length = 0 := by omega
  have hM : BaseFastTextClassifier.predict_proba clf X engine =
      Except.ok rows := by
    simp [BaseFastTextClassifier.predict_proba, hfit, hm, hc, hfill, hsub,
      Bind.bind, Except.bind, Pure.pure, Except.pure]
  have hrlen : rows.length = X.length := by
    have h1 := mapME_ok_length hrows
    have h2 : engine.enum.length = engine.length := List.enum_length
    omega
  refine ⟨rows, hM, hrlen, ?_, ?_⟩
  · intro r hr
    obtain ⟨i, hi⟩ := List.get?_of_mem hr
    obtain ⟨hb, -⟩ := List.get?_eq_some.mp hi
    obtain ⟨qq, hqq⟩ : ∃ qq, engine.enum.get? i = some qq := by
      cases hgg : engine.enum.get? i with
      | none =>
        rw [List.get?_eq_none] at hgg
        have h1 := mapME_ok_length hrows
        omega
      | some qq => exact ⟨qq, rfl⟩
    obtain ⟨r2, hr2, hbody⟩ := mapME_ok_get hrows hqq
    have hrr : r2 = r := by
      rw [hi] at hr2
      exact (Option.some.inj hr2).symm
    cases hpr : probaRow clf.label classes clf.adjusted_labels qq.2 with
    | error e =>
      simp only [hpr, Bind.bind, Except.bind] at hbody
      exact Except.noConfusion hbody
    | ok row0 =>
      simp only [hpr, Bind.bind, Except.bind] at hbody
      by_cases hqlt : qq.1 < X.length
      · rw [if_pos hqlt] at hbody
        simp only [Except.ok.injEq] at hbody
        have hl0 : row0.length = classes.length := by
          have hpr2 : mapME (probaCell clf.adjusted_labels
              (labelOrder clf.label qq.2.labels) qq.2.probs) classes =
              Except.ok row0 := hpr
          exact mapME_ok_length hpr2
        rw [← hrr, ← hbody]
        exact hl0
      · rw [if_neg hqlt] at hbody
        exact Except.noConfusion hbody
  · intro i j p c a k l q hip hj hda hkl hstrip hq
    have hie : engine.enum.get? i = some (i, p) := by
      rw [enum_get?_eq, hip]
      rfl
    obtain ⟨r2, hr2, hbody⟩ := mapME_ok_get hrows hie
    cases hpr : probaRow clf.label classes clf.adjusted_labels p with
    | error e =>
      simp only [hpr, Bind.bind, Except.bind] at hbody
      exact Except.noConfusion hbody
    | ok row0 =>
      simp only [hpr, Bind.bind, Except.bind] at hbody
      by_cases hqlt : i < X.length
      · rw [if_pos hqlt] at hbody
        simp only [Except.ok.injEq] at hbody
        have hpm : p ∈ engine := List.get?_mem hip
        obtain ⟨row1, hrow1, -, hpt⟩ :=
          probaRow_ok clf.label classes clf.adjusted_labels p (hnd _ hpm)
            (hpl _ hpm) (hres _ hpm)
        have h01 : row1 = row0 := by
          rw [hpr] at hrow1
          exact (Except.ok.inj hrow1).symm
        have hval := hpt j c a k l q hj hda hkl hstrip hq
        rw [hr2]
        show r2.get? j = some q
        rw [← hbody, ← h01]
        exact hval
      · rw [if_neg hqlt] at hbody
        exact Except.noConfusion hbody

/-- Witness for C3 on the fitted instance clfM (classes ["a","b"]) with one
input and an engine answer listing class "b" first: the matrix exists, is
1 x 2, and each entry equals the probability the engine paired with that
class's adjusted label. -/
theorem predict_proba_aligned_witness :
    clfM.fitted = true ∧ engM.length = (["x"] : List String).length ∧
    (∃ M, BaseFastTextClassifier.predict_proba clfM ["x"] engM =
        Except.ok M ∧
      M.length = (["x"] : List String).length ∧
      (∀ r ∈ M, r.length = (["a", "b"] : List String).length) ∧
      (∀ i j p c a k l q, engM.get? i = some p →
        (["a", "b"] : List String).get? j = some c →
        dictLookup clfM.adjusted_labels c = some a →
        p.labels.get? k = some l → stripTok clfM.label l = a →
        p.probs.get? k = some q →
        (M.get? i).bind (fun r => r.get? j) = some q)) :=
  ⟨rfl, rfl, predict_proba_aligned clfM ["x"] engM m0 ["a", "b"] rfl rfl rfl
    rfl (by decide) (by decide) (by decide)⟩
